import Mathlib

/-!
Shallow embedding of the per-file command-pipeline execution engine of
uqfindexec (src/unnamed/part_000).  Strings are modelled as `List Char`,
child-process termination statuses as an inductive `WaitStatus`, and the
interaction with the operating system (redirection-validation results,
termination statuses, the asynchronous interrupt flag) as an explicit
environment `Env`.  The scheduler loop of `run_pipeline` is transcribed
clause by clause, including the exact program points at which the global
`sigintReceived` flag is read: reads are numbered consecutively through a
run and served by `Env.sig`, so that the short-circuit evaluation order of
the C conditions is preserved.
-/

/- Placeholder marker characters (the literal marker is the two-character
sequence consisting of `lbrace` followed by `rbrace`). -/
def lbrace : Char := '\x7b'

def rbrace : Char := '\x7d'

/-- Transcription of count_placeholders (part_000:433-444): the strstr-based
scan is flattened into a character-by-character scan counting
non-overlapping occurrences of the marker, skipping two characters past
each occurrence found (`checkStr += 2` in the source). -/
def count_placeholders : List Char → Nat
  | [] => 0
  | [_] => 0
  | c1 :: c2 :: rest =>
    if c1 = lbrace ∧ c2 = rbrace then count_placeholders rest + 1
    else count_placeholders (c2 :: rest)

/-- Transcription of handle_placeholders (part_000:463-504): every
non-overlapping occurrence of the marker is replaced, left to right, by
`fill`; the scan resumes two characters past each occurrence, so text that
arrives via `fill` is never rescanned.  (The source special-cases
`count == 0` with `strdup`, which returns an equal string, so the value is
the same.) -/
def handle_placeholders : List Char → List Char → List Char
  | [], _ => []
  | [c], _ => [c]
  | c1 :: c2 :: rest, fill =>
    if c1 = lbrace ∧ c2 = rbrace then fill ++ handle_placeholders rest fill
    else c1 :: handle_placeholders (c2 :: rest) fill

/- Exit codes (part_000:39-46). -/
def CHILD_PROCESS_ERROR : Nat := 99

def PROCESS_ERROR : Nat := 16

def SIGINT_REC : Nat := 17

/-- Termination status of one reaped child, as decoded by
WIFEXITED/WEXITSTATUS/WIFSIGNALED in count_stats.  `waitpid` with no
options only reports exited or signaled children. -/
inductive WaitStatus where
  | exited (code : Nat)
  | signaled (sig : Nat)
deriving DecidableEq, Repr

/-- The `--statistics` counters (the `stats` array of part_000, indices
SUCCESS, FAIL, SIGNAL, NOTEXEC, TOTAL_STATS). -/
structure Stats where
  success : Nat
  fail : Nat
  signal : Nat
  notexec : Nat
  total : Nat
deriving DecidableEq, Repr

def Stats.add (a b : Stats) : Stats :=
  ⟨a.success + b.success, a.fail + b.fail, a.signal + b.signal,
   a.notexec + b.notexec, a.total + b.total⟩

instance : Add Stats := ⟨Stats.add⟩

instance : Zero Stats := ⟨⟨0, 0, 0, 0, 0⟩⟩

instance : AddCommMonoid Stats where
  add_assoc a b c := by
    cases a; cases b; cases c
    show Stats.add (Stats.add _ _) _ = Stats.add _ (Stats.add _ _)
    simp [Stats.add, Nat.add_assoc]
  zero_add a := by
    cases a
    show Stats.add ⟨0, 0, 0, 0, 0⟩ _ = _
    simp [Stats.add]
  add_zero a := by
    cases a
    show Stats.add _ ⟨0, 0, 0, 0, 0⟩ = _
    simp [Stats.add]
  add_comm a b := by
    cases a; cases b
    show Stats.add _ _ = Stats.add _ _
    simp [Stats.add, Nat.add_comm]
  nsmul := nsmulRec
  nsmul_zero a := rfl
  nsmul_succ n a := rfl

/-- WIFEXITED(status) && WEXITSTATUS(status) == CHILD_PROCESS_ERROR. -/
def isNotExecStatus : WaitStatus → Bool
  | .exited c => c == CHILD_PROCESS_ERROR
  | .signaled _ => false

/-- WIFSIGNALED(status). -/
def isSignaledStatus : WaitStatus → Bool
  | .signaled _ => true
  | .exited _ => false

/-- WIFEXITED(status), WEXITSTATUS(status) not CHILD_PROCESS_ERROR and
nonzero (the `else if` arm of count_stats). -/
def isFailStatus : WaitStatus → Bool
  | .exited c => !(c == CHILD_PROCESS_ERROR) && !(c == 0)
  | .signaled _ => false

/-- Transcription of count_stats (part_000:823-855): one pass over the
statuses sets the three flags, an if-chain bumps exactly one bucket, and
the total counter is always bumped. -/
def count_stats (stats : Stats) (statuses : List WaitStatus) : Stats :=
  let notexec := statuses.any isNotExecStatus
  let sigFlag := statuses.any isSignaledStatus
  let failFlag := statuses.any isFailStatus
  let bumped :=
    if notexec then { stats with notexec := stats.notexec + 1 }
    else if sigFlag then { stats with signal := stats.signal + 1 }
    else if failFlag then { stats with fail := stats.fail + 1 }
    else { stats with success := stats.success + 1 }
  { bumped with total := bumped.total + 1 }

/-- The per-file OutcomeRecord of the spec. -/
inductive Outcome where
  | success
  | failure
  | signalTerminated
  | notExecuted
deriving DecidableEq, Repr

/-- Modelled from the spec's classification priority (spec section 4.6):
NotExecuted if any stage carries the could-not-execute status, else
SignalTerminated if any stage was signal-terminated, else Failure if any
stage exited nonzero (and not the marker), else Success.  This definition
follows the spec's words; `count_stats` above follows the source. -/
def classify (statuses : List WaitStatus) : Outcome :=
  if statuses.any isNotExecStatus then .notExecuted
  else if statuses.any isSignaledStatus then .signalTerminated
  else if statuses.any isFailStatus then .failure
  else .success

/-- Increment exactly the bucket of the given outcome, plus the total
counter. -/
def applyOutcome (s : Stats) : Outcome → Stats
  | .notExecuted => { s with notexec := s.notexec + 1, total := s.total + 1 }
  | .signalTerminated => { s with signal := s.signal + 1, total := s.total + 1 }
  | .failure => { s with fail := s.fail + 1, total := s.total + 1 }
  | .success => { s with success := s.success + 1, total := s.total + 1 }

/-- The `stats[NOTEXEC]++; stats[TOTAL_STATS]++;` of the failed-validation
path in run_pipeline (part_000:964-965). -/
def bumpNotExec (s : Stats) : Stats :=
  { s with notexec := s.notexec + 1, total := s.total + 1 }

/-- The stats delta contributed by one classified file. -/
def outcomeUnit (o : Outcome) : Stats := applyOutcome 0 o

/-- Sum of the four category buckets (used to state that exactly one
bucket is bumped per file). -/
def bucketSum (s : Stats) : Nat := s.success + s.fail + s.signal + s.notexec

/- ----------------------------------------------------------------- -/
/- Redirection validation (try_open_file, validate_files).           -/
/- ----------------------------------------------------------------- -/

/-- The file system as seen through open(2): whether a path can be opened
O_RDONLY, and whether it can be opened O_WRONLY|O_CREAT|O_TRUNC. -/
structure FileSys where
  canRead : List Char → Bool
  canWrite : List Char → Bool

/-- Observable actions of the validator: an open attempt (tagged with the
mode: `true` is read-only, `false` is create/truncate for writing), a
close of a successfully opened descriptor, and a diagnostic naming the
failed (resolved) path and the file being processed. -/
inductive FileEvent where
  | openAttempt (forRead : Bool) (path : List Char)
  | closed (path : List Char)
  | diag (forRead : Bool) (path fileName : List Char)
deriving DecidableEq, Repr

/-- Transcription of try_open_file (part_000:520-546): resolve the
placeholders in the target name against the file being processed, open in
the requested mode, and on failure print the read/write diagnostic naming
the resolved target and the processed file and report failure (-1). -/
def try_open_file (fs : FileSys) (openFileName fileName : List Char)
    (readOrWrite : Bool) : Bool × List FileEvent :=
  let p := handle_placeholders openFileName fileName
  if readOrWrite then
    if fs.canRead p then (true, [.openAttempt true p])
    else (false, [.openAttempt true p, .diag true p fileName])
  else
    if fs.canWrite p then (true, [.openAttempt false p])
    else (false, [.openAttempt false p, .diag false p fileName])

/-- The output-file half of validate_files (part_000:801-809). -/
def validate_out (fs : FileSys) (outputFile : Option (List Char))
    (fileName : List Char) (acc : List FileEvent) : Bool × List FileEvent :=
  match outputFile with
  | some outF =>
    let r := try_open_file fs outF fileName false
    if r.1 = false then (false, acc ++ r.2)
    else (true, acc ++ r.2 ++ [.closed (handle_placeholders outF fileName)])
  | none => (true, acc)

/-- Transcription of validate_files (part_000:787-812): try the input
redirection target first (read mode), closing it on success and returning
false immediately on failure; then likewise the output target (write
mode); true only if every specified target opened. -/
def validate_files (fs : FileSys) (inputFile outputFile : Option (List Char))
    (fileName : List Char) : Bool × List FileEvent :=
  match inputFile with
  | some inF =>
    let r := try_open_file fs inF fileName true
    if r.1 = false then (false, r.2)
    else validate_out fs outputFile fileName
        (r.2 ++ [.closed (handle_placeholders inF fileName)])
  | none => validate_out fs outputFile fileName []

/-- Expected successful open-then-close trace for one optional
redirection target. -/
def optTrace (forRead : Bool) (o : Option (List Char)) (fileName : List Char) :
    List FileEvent :=
  match o with
  | none => []
  | some p => [.openAttempt forRead (handle_placeholders p fileName),
               .closed (handle_placeholders p fileName)]

/- ----------------------------------------------------------------- -/
/- The child branch of spawn_child.                                  -/
/- ----------------------------------------------------------------- -/

/-- Diagnostic emitted by a child whose execvp failed (execError,
part_000:715). -/
inductive ChildEvent where
  | execDiag (prog fileName : List Char)
deriving DecidableEq, Repr

/-- The tail of spawn_child's child branch (part_000:713-717): execvp the
program; if the exec succeeds, the child's eventual termination status is
whatever the program produces (`runStatus`); if it fails, the child prints
the exec diagnostic naming the program and the file being processed and
does `_exit(CHILD_PROCESS_ERROR)`. -/
def child_exec_tail (execOk : Bool) (runStatus : WaitStatus)
    (prog fileName : List Char) : WaitStatus × List ChildEvent :=
  if execOk then (runStatus, [])
  else (WaitStatus.exited CHILD_PROCESS_ERROR, [ChildEvent.execDiag prog fileName])

/- ----------------------------------------------------------------- -/
/- The scheduler: run_pipeline and its helpers.                      -/
/- ----------------------------------------------------------------- -/

/-- Environment of one run: the pipeline's stage count, the file count,
the per-file result of redirection validation, the termination status the
OS reports for each (file, stage) pair, and the value of the global
`sigintReceived` flag at its k-th read (reads are numbered consecutively
through the run, so any asynchronous setting of the flag is expressible). -/
structure Env where
  numCmds : Nat
  numFiles : Nat
  valid : Nat → Bool
  status : Nat → Nat → WaitStatus
  sig : Nat → Bool

/-- The statuses reap_children collects for one file's StageProcessSet,
in stage order. -/
def statusList (env : Env) (i : Nat) : List WaitStatus :=
  (List.range env.numCmds).map (env.status i)

/-- Transcription of exec_cmd (part_000:743-771): one child is spawned
per pipeline stage, in stage index order.  The value is the list of
spawn events `(file, stage)` in the order they happen. -/
def exec_cmd (numCmds : Nat) (fileIdx : Nat) : List (Nat × Nat) :=
  (List.range numCmds).map (fun j => (fileIdx, j))

/-- Transcription of reap_children (part_000:868-881): waitpid each pid in
stage order, then fold the collected statuses into the stats via
count_stats.  (The reap events, in order, equal `exec_cmd numCmds i`.) -/
def reap_children (env : Env) (i : Nat) (stats : Stats) : Stats :=
  count_stats stats (statusList env i)

/-- Coordinator state threaded through the scheduler loop: the stats
array, the spawn and reap event traces, the number of reads of
`sigintReceived` performed so far, and the `config->sigInt` flag. -/
structure RunState where
  stats : Stats
  spawned : List (Nat × Nat)
  reaped : List (Nat × Nat)
  reads : Nat
  sigInt : Bool
deriving DecidableEq, Repr

def initState : RunState := ⟨⟨0, 0, 0, 0, 0⟩, [], [], 0, false⟩

/-- Transcription of sequential_process (part_000:894-904): spawn every
stage of the file's pipeline, then immediately reap them all (in stage
order) and count the outcome. -/
def sequential_process (env : Env) (i : Nat) (st : RunState) : RunState :=
  { st with
    stats := count_stats st.stats (statusList env i),
    spawned := st.spawned ++ exec_cmd env.numCmds i,
    reaped := st.reaped ++ exec_cmd env.numCmds i }

/-- Transcription of parallel_process (part_000:918-926): spawn every
stage but do not reap. -/
def parallel_process (env : Env) (i : Nat) (st : RunState) : RunState :=
  { st with spawned := st.spawned ++ exec_cmd env.numCmds i }

/-- Sequential processing of file `i` followed by the in-loop interrupt
poll of run_pipeline (part_000:970-974): after sequential_process, read
`sigintReceived`; if it is set and `i < fileList.count - 1`, record
`config->sigInt = true` and break (the returned Bool). -/
def seqAfterProcess (env : Env) (i : Nat) (st : RunState) : RunState × Bool :=
  let st1 := sequential_process env i st
  if env.sig st1.reads = true ∧ i < env.numFiles - 1 then
    ({ st1 with reads := st1.reads + 1, sigInt := true }, true)
  else
    ({ st1 with reads := st1.reads + 1 }, false)

/-- One sequential-mode iteration of the run_pipeline loop
(part_000:960-978, with `config->parallel` false).  The condition
`!validate_files(...) && !sigintReceived` reads the flag only when
validation failed (short-circuit), and the condition
`!config->parallel && !sigintReceived` always reads it in sequential
mode.  Returns the new state and whether the loop was broken. -/
def seqIter (env : Env) (i : Nat) (st : RunState) : RunState × Bool :=
  if env.valid i = false then
    if env.sig st.reads = false then
      ({ st with stats := bumpNotExec st.stats, reads := st.reads + 1 }, false)
    else
      if env.sig (st.reads + 1) = false then
        seqAfterProcess env i { st with reads := st.reads + 2 }
      else
        ({ st with reads := st.reads + 2 }, false)
  else
    if env.sig st.reads = false then
      seqAfterProcess env i { st with reads := st.reads + 1 }
    else
      ({ st with reads := st.reads + 1 }, false)

/-- The sequential-mode for-loop of run_pipeline, driven by the remaining
iteration count (`fuel`) with `i` the current file index. -/
def run_pipeline_seq_aux (env : Env) : Nat → Nat → RunState → RunState
  | _, 0, st => st
  | i, fuel + 1, st =>
    let p := seqIter env i st
    if p.2 then p.1 else run_pipeline_seq_aux env (i + 1) fuel p.1

/-- run_pipeline (part_000:943-990) in sequential mode. -/
def run_pipeline_seq (env : Env) : RunState :=
  run_pipeline_seq_aux env 0 env.numFiles initState

/-- One parallel-mode iteration of the run_pipeline loop
(part_000:960-978, with `config->parallel` true): if validation failed
the flag is read; if the flag was clear the file is counted NotExecuted
and skipped, but if the flag was set the condition fails and control
falls through to parallel_process, which spawns the pipeline.  Valid
files are spawned without any flag read (`!config->parallel`
short-circuits).  The returned Bool says whether `pids[i]` was set,
i.e. whether the reaping pass must reap this file. -/
def parIter (env : Env) (i : Nat) (st : RunState) : RunState × Bool :=
  if env.valid i = false then
    if env.sig st.reads = false then
      ({ st with stats := bumpNotExec st.stats, reads := st.reads + 1 }, false)
    else
      (parallel_process env i { st with reads := st.reads + 1 }, true)
  else
    (parallel_process env i st, true)

/-- The spawning pass of parallel mode over the given file indices;
also returns, per file, whether its pid array was allocated. -/
def parPass1 (env : Env) : List Nat → RunState → RunState × List Bool
  | [], st => (st, [])
  | i :: rest, st =>
    let p := parIter env i st
    let q := parPass1 env rest p.1
    (q.1, p.2 :: q.2)

/-- The reaping pass of parallel mode (part_000:981-988): in file order,
reap (and count) exactly the files whose pid array was allocated. -/
def parPass2 (env : Env) : List (Nat × Bool) → RunState → RunState
  | [], st => st
  | ib :: rest, st =>
    if ib.2 then
      parPass2 env rest
        { st with stats := reap_children env ib.1 st.stats,
                  reaped := st.reaped ++ exec_cmd env.numCmds ib.1 }
    else parPass2 env rest st

/-- run_pipeline (part_000:943-990) in parallel mode. -/
def run_pipeline_par (env : Env) : RunState :=
  let p := parPass1 env (List.range env.numFiles) initState
  parPass2 env ((List.range env.numFiles).zip p.2) p.1

/-- The exit-disposition decision at the end of main (part_000:1076-1082):
process-error if any file was NotExecuted, else interrupt if the run was
cut short by SIGINT, else normal termination. -/
def main_exit (stats : Stats) (sigInt : Bool) : Nat :=
  if stats.notexec ≠ 0 then PROCESS_ERROR
  else if sigInt then SIGINT_REC
  else 0

/- ----------------------------------------------------------------- -/
/- Derived per-run quantities used to state run-level theorems.       -/
/- ----------------------------------------------------------------- -/

/-- The stats delta one file contributes: its pipeline's classification
if it validated, NotExecuted otherwise. -/
def fileUnit (env : Env) (i : Nat) : Stats :=
  if env.valid i then outcomeUnit (classify (statusList env i))
  else outcomeUnit Outcome.notExecuted

/-- Total stats delta of a list of files. -/
def runUnits (env : Env) (l : List Nat) : Stats :=
  (l.map (fileUnit env)).sum

/-- The spawn (equally: reap) events of a list of files: each file that
validated contributes one event per stage, in stage order. -/
def runEvents (env : Env) (l : List Nat) : List (Nat × Nat) :=
  (l.filter env.valid).flatMap (exec_cmd env.numCmds)

/-- Number of `sigintReceived` reads a quiet (never-interrupted)
sequential run performs for these files. -/
def readsOf (env : Env) (l : List Nat) : Nat :=
  (l.map (fun i => if env.valid i then 2 else 1)).sum

/-- Stats delta of the parallel spawning pass. -/
def neUnits (env : Env) (l : List Nat) : Stats :=
  (l.map (fun i => if env.valid i then (0 : Stats)
                   else outcomeUnit Outcome.notExecuted)).sum

/-- Stats delta of the parallel reaping pass. -/
def vUnits (env : Env) (l : List Nat) : Stats :=
  (l.map (fun i => if env.valid i then outcomeUnit (classify (statusList env i))
                   else (0 : Stats))).sum

/-- Number of flag reads of the parallel spawning pass. -/
def parReadsOf (env : Env) (l : List Nat) : Nat :=
  (l.map (fun i => if env.valid i then 0 else 1)).sum

/- ----------------------------------------------------------------- -/
/- Concrete environments used by counterexamples and witnesses.       -/
/- ----------------------------------------------------------------- -/

/-- Three valid files, one-stage pipeline, SIGINT delivered after the
first file completes: the flag reads false at the pre-processing poll of
file 0 (read 0) and true from the between-files poll onward. -/
def envInterrupt : Env :=
  ⟨1, 3, fun _ => true, fun _ _ => WaitStatus.exited 0, fun k => k != 0⟩

/-- Parallel-mode counterexample: a single file whose redirection
validation fails, with the interrupt flag already set. -/
def envSpawnBug : Env :=
  ⟨1, 1, fun _ => false, fun _ _ => WaitStatus.exited 0, fun _ => true⟩

/-- A single invalid file with the interrupt flag never set. -/
def envInvalidQuiet : Env :=
  ⟨1, 1, fun _ => false, fun _ _ => WaitStatus.exited 0, fun _ => false⟩

/-- Two files (file 0 valid, file 1 invalid), two stages, no interrupt. -/
def envMixed : Env :=
  ⟨2, 2, fun i => i == 0, fun _ j => WaitStatus.exited j, fun _ => false⟩

/-- One valid file whose single stage exits with code 99, no interrupt. -/
def env99 : Env :=
  ⟨1, 1, fun _ => true, fun _ _ => WaitStatus.exited CHILD_PROCESS_ERROR,
   fun _ => false⟩

/-- The template "&#123;&#123;&#125;&#125;" used by the re-scan counterexample. -/
def tmplNested : List Char := [lbrace, lbrace, rbrace, rbrace]

/- ----------------------------------------------------------------- -/
/- Basic lemmas about Stats.                                          -/
/- ----------------------------------------------------------------- -/

@[simp] theorem Stats.mk_add_mk (a b c d e a' b' c' d' e' : Nat) :
    (⟨a, b, c, d, e⟩ + ⟨a', b', c', d', e'⟩ : Stats)
      = ⟨a + a', b + b', c + c', d + d', e + e'⟩ := rfl

theorem Stats.zero_eq : (0 : Stats) = ⟨0, 0, 0, 0, 0⟩ := rfl

@[simp] theorem Stats.add_success (a b : Stats) :
    (a + b).success = a.success + b.success := rfl

@[simp] theorem Stats.add_fail (a b : Stats) :
    (a + b).fail = a.fail + b.fail := rfl

@[simp] theorem Stats.add_signal (a b : Stats) :
    (a + b).signal = a.signal + b.signal := rfl

@[simp] theorem Stats.add_notexec (a b : Stats) :
    (a + b).notexec = a.notexec + b.notexec := rfl

@[simp] theorem Stats.add_total (a b : Stats) :
    (a + b).total = a.total + b.total := rfl

theorem count_stats_eq (s : Stats) (sts : List WaitStatus) :
    count_stats s sts = applyOutcome s (classify sts) := by
  cases h1 : sts.any isNotExecStatus <;> cases h2 : sts.any isSignaledStatus <;>
    cases h3 : sts.any isFailStatus <;>
      simp [count_stats, classify, applyOutcome, h1, h2, h3]

theorem applyOutcome_eq_add (s : Stats) (o : Outcome) :
    applyOutcome s o = s + outcomeUnit o := by
  cases s; cases o <;> simp [applyOutcome, outcomeUnit, Stats.zero_eq]

theorem bumpNotExec_eq_add (s : Stats) :
    bumpNotExec s = s + outcomeUnit Outcome.notExecuted := by
  cases s; simp [bumpNotExec, outcomeUnit, applyOutcome, Stats.zero_eq]

theorem count_stats_eq_add (s : Stats) (sts : List WaitStatus) :
    count_stats s sts = s + outcomeUnit (classify sts) := by
  rw [count_stats_eq, applyOutcome_eq_add]

theorem le_sum_notexec : ∀ (l : List Stats) (x : Stats), x ∈ l →
    x.notexec ≤ l.sum.notexec := by
  intro l
  induction l with
  | nil => intro x hx; cases hx
  | cons a l ih =>
    intro x hx
    rw [List.sum_cons]
    rcases List.mem_cons.mp hx with h | h
    · subst h; simp
    · calc x.notexec ≤ l.sum.notexec := ih x h
        _ ≤ a.notexec + l.sum.notexec := Nat.le_add_left _ _
        _ = (a + l.sum).notexec := (Stats.add_notexec a l.sum).symm

/- ----------------------------------------------------------------- -/
/- Placeholder substitution lemmas.                                   -/
/- ----------------------------------------------------------------- -/

theorem twoStepInduction {P : List Char → Prop} (h0 : P []) (h1 : ∀ c, P [c])
    (h2 : ∀ c1 c2 rest, P rest → P (c2 :: rest) → P (c1 :: c2 :: rest)) :
    ∀ l, P l
  | [] => h0
  | [c] => h1 c
  | c1 :: c2 :: rest =>
    h2 c1 c2 rest (twoStepInduction h0 h1 h2 rest)
      (twoStepInduction h0 h1 h2 (c2 :: rest))

theorem handle_length_aux (F : List Char) :
    ∀ T, (handle_placeholders T F).length + 2 * count_placeholders T
      = T.length + count_placeholders T * F.length := by
  intro T
  induction T using twoStepInduction with
  | h0 => simp [handle_placeholders, count_placeholders]
  | h1 c => simp [handle_placeholders, count_placeholders]
  | h2 c1 c2 rest ih1 ih2 =>
    by_cases h : c1 = lbrace ∧ c2 = rbrace
    · simp only [handle_placeholders, count_placeholders, if_pos h,
        List.length_append, List.length_cons, Nat.succ_mul]
      generalize count_placeholders rest * F.length = q at ih1 ⊢
      omega
    · simp only [handle_placeholders, count_placeholders, if_neg h,
        List.length_cons] at ih2 ⊢
      generalize count_placeholders (c2 :: rest) * F.length = q at ih2 ⊢
      omega

theorem two_count_le : ∀ T : List Char, 2 * count_placeholders T ≤ T.length := by
  intro T
  induction T using twoStepInduction with
  | h0 => simp [count_placeholders]
  | h1 c => simp [count_placeholders]
  | h2 c1 c2 rest ih1 ih2 =>
    by_cases h : c1 = lbrace ∧ c2 = rbrace
    · simp only [count_placeholders, if_pos h, List.length_cons]; omega
    · simp only [count_placeholders, if_neg h, List.length_cons] at ih2 ⊢; omega

theorem handle_copy (F : List Char) :
    ∀ T, count_placeholders T = 0 → handle_placeholders T F = T := by
  intro T
  induction T using twoStepInduction with
  | h0 => intro _; rfl
  | h1 c => intro _; rfl
  | h2 c1 c2 rest ih1 ih2 =>
    intro hc
    by_cases h : c1 = lbrace ∧ c2 = rbrace
    · simp [count_placeholders, if_pos h] at hc
    · simp only [count_placeholders, if_neg h] at hc
      simp only [handle_placeholders, if_neg h]
      rw [ih2 hc]

theorem count_cons_of_head (c : Char) (l : List Char)
    (h : ¬(c = lbrace ∧ l.head? = some rbrace)) :
    count_placeholders (c :: l) = count_placeholders l := by
  cases l with
  | nil => simp [count_placeholders]
  | cons d l' =>
    have hd : ¬(c = lbrace ∧ d = rbrace) := by
      rintro ⟨hc1, hc2⟩
      exact h ⟨hc1, by rw [hc2]; rfl⟩
    simp only [count_placeholders, if_neg hd]

theorem count_append_no_lbrace (F B : List Char) (h : lbrace ∉ F) :
    count_placeholders (F ++ B) = count_placeholders B := by
  induction F with
  | nil => simp
  | cons c F' ih =>
    simp only [List.mem_cons, not_or] at h
    rw [List.cons_append, count_cons_of_head]
    · exact ih h.2
    · rintro ⟨hc1, _⟩
      exact h.1 hc1.symm

theorem handle_head (F : List Char) (hF : F ≠ []) (c : Char) (rest : List Char) :
    (handle_placeholders (c :: rest) F).head? = some c ∨
      (handle_placeholders (c :: rest) F).head? = F.head? := by
  cases rest with
  | nil => left; rfl
  | cons d r =>
    by_cases h : c = lbrace ∧ d = rbrace
    · right
      simp only [handle_placeholders, if_pos h]
      cases F with
      | nil => exact absurd rfl hF
      | cons f fs => rfl
    · left
      simp only [handle_placeholders, if_neg h]
      rfl

theorem count_handle_eq_zero (F : List Char) (hF : F ≠ [])
    (hl : lbrace ∉ F) (hr : rbrace ∉ F) :
    ∀ T, count_placeholders (handle_placeholders T F) = 0 := by
  intro T
  induction T using twoStepInduction with
  | h0 => rfl
  | h1 c => rfl
  | h2 c1 c2 rest ih1 ih2 =>
    by_cases h : c1 = lbrace ∧ c2 = rbrace
    · simp only [handle_placeholders, if_pos h]
      rw [count_append_no_lbrace F _ hl]
      exact ih1
    · simp only [handle_placeholders, if_neg h]
      rw [count_cons_of_head]
      · exact ih2
      · rintro ⟨hc1, hc2⟩
        rcases handle_head F hF c2 rest with hh | hh
        · rw [hh] at hc2
          exact h ⟨hc1, by injection hc2⟩
        · rw [hh] at hc2
          cases F with
          | nil => exact hF rfl
          | cons f fs =>
            have : rbrace = f := by injection hc2 with h'; exact h'.symm
            exact hr (by rw [this]; exact List.mem_cons_self f fs)

/- ----------------------------------------------------------------- -/
/- Characterization of uninterrupted runs.                            -/
/- ----------------------------------------------------------------- -/

theorem runUnits_cons (env : Env) (i : Nat) (l : List Nat) :
    runUnits env (i :: l) = fileUnit env i + runUnits env l := by
  simp [runUnits]

theorem runEvents_cons (env : Env) (i : Nat) (l : List Nat) :
    runEvents env (i :: l) =
      (if env.valid i then exec_cmd env.numCmds i else []) ++ runEvents env l := by
  cases hv : env.valid i <;> simp [runEvents, List.filter_cons, hv]

theorem readsOf_cons (env : Env) (i : Nat) (l : List Nat) :
    readsOf env (i :: l) = (if env.valid i then 2 else 1) + readsOf env l := by
  simp [readsOf]

theorem neUnits_cons (env : Env) (i : Nat) (l : List Nat) :
    neUnits env (i :: l) =
      (if env.valid i then (0 : Stats) else outcomeUnit Outcome.notExecuted)
        + neUnits env l := by
  simp [neUnits]

theorem vUnits_cons (env : Env) (i : Nat) (l : List Nat) :
    vUnits env (i :: l) =
      (if env.valid i then outcomeUnit (classify (statusList env i))
       else (0 : Stats)) + vUnits env l := by
  simp [vUnits]

theorem parReadsOf_cons (env : Env) (i : Nat) (l : List Nat) :
    parReadsOf env (i :: l) = (if env.valid i then 0 else 1) + parReadsOf env l := by
  simp [parReadsOf]

theorem seqIter_nosig (env : Env) (i : Nat) (st : RunState)
    (h : ∀ k, env.sig k = false) :
    seqIter env i st =
      (if env.valid i then
        { st with stats := count_stats st.stats (statusList env i),
                  spawned := st.spawned ++ exec_cmd env.numCmds i,
                  reaped := st.reaped ++ exec_cmd env.numCmds i,
                  reads := st.reads + 2 }
       else { st with stats := bumpNotExec st.stats, reads := st.reads + 1 },
       false) := by
  cases hv : env.valid i <;>
    simp [seqIter, seqAfterProcess, sequential_process, hv, h, Nat.add_assoc]

theorem seq_aux_nosig (env : Env) (h : ∀ k, env.sig k = false) :
    ∀ fuel i st, run_pipeline_seq_aux env i fuel st =
      { stats := st.stats + runUnits env (List.range' i fuel),
        spawned := st.spawned ++ runEvents env (List.range' i fuel),
        reaped := st.reaped ++ runEvents env (List.range' i fuel),
        reads := st.reads + readsOf env (List.range' i fuel),
        sigInt := st.sigInt } := by
  intro fuel
  induction fuel with
  | zero =>
    intro i st
    simp [run_pipeline_seq_aux, runUnits, runEvents, readsOf, List.range']
  | succ fuel ih =>
    intro i st
    have hr : List.range' i (fuel + 1) = i :: List.range' (i + 1) fuel := rfl
    rw [hr]
    simp only [run_pipeline_seq_aux, seqIter_nosig env i st h]
    cases hv : env.valid i
    · simp only [Bool.false_eq_true, if_false, ih]
      simp [runUnits_cons, runEvents_cons, readsOf_cons, hv, bumpNotExec_eq_add,
        add_assoc, Nat.add_assoc, fileUnit]
    · simp only [if_true, ih]
      simp [runUnits_cons, runEvents_cons, readsOf_cons, hv, count_stats_eq_add,
        add_assoc, Nat.add_assoc, fileUnit, List.append_assoc]

theorem run_seq_nosig (env : Env) (h : ∀ k, env.sig k = false) :
    run_pipeline_seq env =
      { stats := runUnits env (List.range env.numFiles),
        spawned := runEvents env (List.range env.numFiles),
        reaped := runEvents env (List.range env.numFiles),
        reads := readsOf env (List.range env.numFiles),
        sigInt := false } := by
  rw [run_pipeline_seq, seq_aux_nosig env h, List.range_eq_range']
  simp [initState, ← Stats.zero_eq]

theorem parIter_nosig (env : Env) (i : Nat) (st : RunState)
    (h : ∀ k, env.sig k = false) :
    parIter env i st =
      (if env.valid i then
        { st with spawned := st.spawned ++ exec_cmd env.numCmds i }
       else { st with stats := bumpNotExec st.stats, reads := st.reads + 1 },
       env.valid i) := by
  cases hv : env.valid i <;> simp [parIter, parallel_process, hv, h]

theorem parPass1_nosig (env : Env) (h : ∀ k, env.sig k = false) :
    ∀ l st, parPass1 env l st =
      ({ stats := st.stats + neUnits env l,
         spawned := st.spawned ++ runEvents env l,
         reaped := st.reaped,
         reads := st.reads + parReadsOf env l,
         sigInt := st.sigInt },
       l.map env.valid) := by
  intro l
  induction l with
  | nil =>
    intro st
    simp [parPass1, neUnits, runEvents, parReadsOf]
  | cons i l ih =>
    intro st
    simp only [parPass1, parIter_nosig env i st h, List.map_cons]
    cases hv : env.valid i
    · simp only [Bool.false_eq_true, if_false, ih]
      simp [neUnits_cons, runEvents_cons, parReadsOf_cons, hv, bumpNotExec_eq_add,
        add_assoc, Nat.add_assoc]
    · simp only [if_true, ih]
      simp [neUnits_cons, runEvents_cons, parReadsOf_cons, hv, add_assoc,
        List.append_assoc]

theorem zip_map_self (g : Nat → Bool) :
    ∀ l : List Nat, l.zip (l.map g) = l.map (fun a => (a, g a)) := by
  intro l
  induction l with
  | nil => rfl
  | cons a l ih => simp [ih]

theorem parPass2_flags (env : Env) :
    ∀ l st, parPass2 env (l.map (fun i => (i, env.valid i))) st =
      { st with stats := st.stats + vUnits env l,
                reaped := st.reaped ++ runEvents env l } := by
  intro l
  induction l with
  | nil =>
    intro st
    simp [parPass2, vUnits, runEvents]
  | cons i l ih =>
    intro st
    cases hv : env.valid i
    · simp only [List.map_cons, parPass2, hv, Bool.false_eq_true, if_false, ih]
      simp [vUnits_cons, runEvents_cons, hv, add_assoc]
    · simp only [List.map_cons, parPass2, hv, if_true, ih]
      simp [vUnits_cons, runEvents_cons, hv, reap_children, count_stats_eq_add,
        add_assoc, List.append_assoc]

theorem units_split (env : Env) :
    ∀ l, neUnits env l + vUnits env l = runUnits env l := by
  intro l
  induction l with
  | nil => simp [neUnits, vUnits, runUnits]
  | cons i l ih =>
    rw [neUnits_cons, vUnits_cons, runUnits_cons, add_add_add_comm, ih]
    cases hv : env.valid i <;> simp [hv, fileUnit]

theorem run_par_nosig (env : Env) (h : ∀ k, env.sig k = false) :
    run_pipeline_par env =
      { stats := runUnits env (List.range env.numFiles),
        spawned := runEvents env (List.range env.numFiles),
        reaped := runEvents env (List.range env.numFiles),
        reads := parReadsOf env (List.range env.numFiles),
        sigInt := false } := by
  rw [run_pipeline_par]
  simp only [parPass1_nosig env h, zip_map_self, parPass2_flags]
  simp [initState, ← units_split env, add_assoc, ← Stats.zero_eq]

/- ----------------------------------------------------------------- -/
/- Per-file extraction of spawn/reap events.                          -/
/- ----------------------------------------------------------------- -/

theorem map_pair_filter (i f : Nat) :
    ∀ js : List Nat, (js.map (fun j => (i, j))).filter (fun e => e.1 == f) =
      if i = f then js.map (fun j => (i, j)) else [] := by
  intro js
  induction js with
  | nil => cases Nat.decEq i f <;> simp
  | cons j js ih =>
    by_cases hif : i = f
    · subst hif
      simp [List.filter_cons, ih]
    · simp [List.filter_cons, hif, ih]

theorem exec_filter_self (k f : Nat) :
    (exec_cmd k f).filter (fun e => e.1 == f) = exec_cmd k f := by
  rw [exec_cmd, map_pair_filter, if_pos rfl]

theorem exec_filter_other (k i f : Nat) (h : i ≠ f) :
    (exec_cmd k i).filter (fun e => e.1 == f) = [] := by
  rw [exec_cmd, map_pair_filter, if_neg h]

theorem runEvents_filter (env : Env) (f : Nat) :
    ∀ l : List Nat, l.Nodup →
      (runEvents env l).filter (fun e => e.1 == f) =
        if f ∈ l ∧ env.valid f = true then exec_cmd env.numCmds f else [] := by
  intro l
  induction l with
  | nil =>
    intro _
    simp [runEvents]
  | cons i l ih =>
    intro hnd
    obtain ⟨hni, hnd'⟩ := List.nodup_cons.mp hnd
    rw [runEvents_cons, List.filter_append, ih hnd']
    by_cases hif : i = f
    · subst hif
      have hrec : ¬(i ∈ l ∧ env.valid i = true) := fun hc => hni hc.1
      rw [if_neg hrec]
      cases hv : env.valid i
      · simp [hv]
      · simp [hv, exec_filter_self]
    · have hfi : ¬f = i := fun hh => hif hh.symm
      cases hv : env.valid i
      · simp [hv, List.mem_cons, hfi]
      · simp [hv, exec_filter_other env.numCmds i f hif, List.mem_cons, hfi]

/- ----------------------------------------------------------------- -/
/- Shared helpers for the claim theorems.                             -/
/- ----------------------------------------------------------------- -/

theorem classify_of_mem99 (sts : List WaitStatus)
    (hmem : WaitStatus.exited CHILD_PROCESS_ERROR ∈ sts) :
    classify sts = Outcome.notExecuted := by
  have hany : sts.any isNotExecStatus = true :=
    List.any_eq_true.mpr ⟨_, hmem, by rfl⟩
  simp [classify, hany]

theorem runUnits_notexec_pos (env : Env) (f : Nat) (hf : f < env.numFiles)
    (hcl : fileUnit env f = outcomeUnit Outcome.notExecuted) :
    (runUnits env (List.range env.numFiles)).notexec ≠ 0 := by
  have hmem : fileUnit env f ∈ (List.range env.numFiles).map (fileUnit env) :=
    List.mem_map.mpr ⟨f, List.mem_range.mpr hf, rfl⟩
  have hle := le_sum_notexec _ _ hmem
  rw [hcl] at hle
  simp only [outcomeUnit, applyOutcome, Stats.zero_eq] at hle
  unfold runUnits
  omega

/- ----------------------------------------------------------------- -/
/- Claim theorems.                                                    -/
/- ----------------------------------------------------------------- -/

/-- C1: for every file's list of collected stage termination statuses,
count_stats classifies the file exactly by the spec's fixed priority over all
stages (could-not-execute status beats signal termination beats nonzero exit
beats success) and increments exactly one category bucket plus the
total-attempted counter of the StatsTally. -/
theorem count_stats_matches_priority (s : Stats) (sts : List WaitStatus) :
    count_stats s sts = applyOutcome s (classify sts) ∧
    bucketSum (count_stats s sts) = bucketSum s + 1 ∧
    (count_stats s sts).total = s.total + 1 := by
  refine ⟨count_stats_eq s sts, ?_, ?_⟩
  · rw [count_stats_eq]
    cases s; cases classify sts <;> simp [applyOutcome, bucketSum] <;> omega
  · rw [count_stats_eq]
    cases s; cases classify sts <;> simp [applyOutcome]

/-- C2 counterexample: with template "&#123;&#123;&#125;&#125;" and the empty
fill string, substitution yields "&#123;&#125;": re-scanning the result finds
one marker occurrence although the fill string contains none, so an occurrence
can originate outside the fill string, refuting the claim's re-scan clause. -/
theorem placeholder_rescan_counterexample :
    count_placeholders tmplNested = 1 ∧
    count_placeholders ([] : List Char) = 0 ∧
    handle_placeholders tmplNested [] = [lbrace, rbrace] ∧
    count_placeholders (handle_placeholders tmplNested []) = 1 := by
  decide

/-- C2 (amended): substitution yields a string of length
len(T) - 2n + n*len(F) with n the number of non-overlapping occurrences,
returns an equivalent copy of T when n = 0, and — provided the fill string is
nonempty and contains neither marker character — re-scanning the result finds
no marker occurrence at all (in particular none is re-substituted from text
that arrived via F).  When F is empty or contains marker characters, marker
occurrences can be formed at substitution boundaries, as the counterexample
shows. -/
theorem placeholder_substitution_spec (T F : List Char) :
    (handle_placeholders T F).length
        = T.length - 2 * count_placeholders T + count_placeholders T * F.length ∧
    (count_placeholders T = 0 → handle_placeholders T F = T) ∧
    (F ≠ [] → lbrace ∉ F → rbrace ∉ F →
      count_placeholders (handle_placeholders T F) = 0) := by
  refine ⟨?_, handle_copy F T, fun hF hl hr => count_handle_eq_zero F hF hl hr T⟩
  have h1 := handle_length_aux F T
  have h2 := two_count_le T
  generalize count_placeholders T * F.length = q at h1 ⊢
  omega

/-- Witness for C2 at T = "ab" (no placeholder), F = "xy". -/
theorem placeholder_substitution_spec_witness :
    (handle_placeholders ['a', 'b'] ['x', 'y']).length
        = (['a', 'b'] : List Char).length
            - 2 * count_placeholders ['a', 'b']
            + count_placeholders ['a', 'b'] * (['x', 'y'] : List Char).length ∧
    handle_placeholders ['a', 'b'] ['x', 'y'] = ['a', 'b'] ∧
    count_placeholders (handle_placeholders ['a', 'b'] ['x', 'y']) = 0 :=
  ⟨(placeholder_substitution_spec ['a', 'b'] ['x', 'y']).1,
   (placeholder_substitution_spec ['a', 'b'] ['x', 'y']).2.1 (by decide),
   (placeholder_substitution_spec ['a', 'b'] ['x', 'y']).2.2 (by decide)
     (by decide) (by decide)⟩

/-- C3 counterexample: in parallel mode with the interrupt flag already set,
the single file of envSpawnBug fails redirection validation and yet its
pipeline stage is spawned and its termination statuses are counted into the
success bucket (nothing into NotExecuted) — because the source guards the
failed-validation branch with `&& !sigintReceived` and parallel mode then
falls through to parallel_process. -/
theorem validate_fail_spawn_counterexample :
    envSpawnBug.valid 0 = false ∧
    (run_pipeline_par envSpawnBug).spawned = [(0, 0)] ∧
    (run_pipeline_par envSpawnBug).stats.success = 1 ∧
    (run_pipeline_par envSpawnBug).stats.notexec = 0 := by
  decide

/-- C3 (amended): if redirection validation fails for file f and the
cancellation flag is not observed set at f's check, then in both execution
modes f's loop iteration spawns no stage process and increments exactly the
NotExecuted and total-attempted counters of the StatsTally (all other state is
unchanged); an unspawned file is skipped by the parallel reaping pass; and in
a run with no interrupt at all, no stage process for f is ever spawned in
either mode. -/
theorem validate_fail_not_executed (env : Env) (i : Nat) (st : RunState)
    (hv : env.valid i = false) (hs : env.sig st.reads = false) :
    seqIter env i st
        = ({ st with stats := bumpNotExec st.stats, reads := st.reads + 1 },
           false) ∧
    parIter env i st
        = ({ st with stats := bumpNotExec st.stats, reads := st.reads + 1 },
           false) ∧
    bumpNotExec st.stats
        = { st.stats with notexec := st.stats.notexec + 1,
                          total := st.stats.total + 1 } ∧
    (∀ bs st2, parPass2 env ((i, false) :: bs) st2 = parPass2 env bs st2) ∧
    ((∀ k, env.sig k = false) → i < env.numFiles →
      (run_pipeline_seq env).spawned.filter (fun e => e.1 == i) = [] ∧
      (run_pipeline_par env).spawned.filter (fun e => e.1 == i) = []) := by
  refine ⟨?_, ?_, rfl, ?_, ?_⟩
  · simp [seqIter, hv, hs]
  · simp [parIter, hv, hs]
  · intro bs st2
    simp [parPass2]
  · intro hall hlt
    rw [run_seq_nosig env hall, run_par_nosig env hall]
    constructor <;>
    · rw [runEvents_filter env i _ (List.nodup_range _), if_neg]
      rintro ⟨_, hvv⟩
      rw [hv] at hvv
      exact Bool.false_ne_true hvv

/-- Witness for C3 (amended) on envInvalidQuiet (one invalid file, flag never
set). -/
theorem validate_fail_not_executed_witness :
    seqIter envInvalidQuiet 0 initState = (⟨⟨0, 0, 0, 1, 1⟩, [], [], 1, false⟩, false) ∧
    (run_pipeline_seq envInvalidQuiet).spawned.filter (fun e => e.1 == 0) = [] := by
  have h := validate_fail_not_executed envInvalidQuiet 0 initState
    (by decide) (by decide)
  exact ⟨h.1.trans (by decide), (h.2.2.2.2 (fun k => rfl) (by decide)).1⟩

/-- C4: in sequential mode, if the cancellation flag reads clear when file i
is about to be processed but reads set at the between-files poll right after
file i completes (with files remaining), the loop breaks immediately: the
final state carries only file i's spawn, reap and stats contributions,
records config->sigInt = true, and none of the remaining files is touched.
Concretely (second conjunct), with three files and the interrupt delivered
after the first completes, exactly one file reaches a terminal outcome,
total-attempted is 1, and the terminated-by-interrupt outcome is recorded. -/
theorem seq_interrupt_stops (env : Env) (i fuel : Nat) (st : RunState)
    (hv : env.valid i = true) (h0 : env.sig st.reads = false)
    (h1 : env.sig (st.reads + 1) = true) (hlt : i < env.numFiles - 1) :
    run_pipeline_seq_aux env i (fuel + 1) st =
      { stats := count_stats st.stats (statusList env i),
        spawned := st.spawned ++ exec_cmd env.numCmds i,
        reaped := st.reaped ++ exec_cmd env.numCmds i,
        reads := st.reads + 2,
        sigInt := true } ∧
    run_pipeline_seq envInterrupt
      = ⟨⟨1, 0, 0, 0, 1⟩, [(0, 0)], [(0, 0)], 2, true⟩ := by
  constructor
  · simp only [run_pipeline_seq_aux]
    simp [seqIter, seqAfterProcess, sequential_process, hv, h0, h1, hlt,
      Nat.add_assoc]
  · decide

/-- Witness for C4's general part, instantiated on envInterrupt. -/
theorem seq_interrupt_stops_witness :
    run_pipeline_seq_aux envInterrupt 0 3 initState
      = ⟨⟨1, 0, 0, 0, 1⟩, [(0, 0)], [(0, 0)], 2, true⟩ := by
  have h := (seq_interrupt_stops envInterrupt 0 2 initState (by decide)
    (by decide) (by decide) (by decide)).1
  exact h.trans (by decide)

/-- C5: the final exit disposition of main is exactly one of PROCESS_ERROR
(16, some file NotExecuted), SIGINT_REC (17, run cut short by interrupt and no
NotExecuted file), or 0 (normal completion), and NotExecuted takes precedence
over the interrupt. -/
theorem final_exit_disposition (s : Stats) (b : Bool) :
    (0 < s.notexec → main_exit s b = PROCESS_ERROR) ∧
    (s.notexec = 0 → b = true → main_exit s b = SIGINT_REC) ∧
    (s.notexec = 0 → b = false → main_exit s b = 0) ∧
    (main_exit s b = PROCESS_ERROR ∨ main_exit s b = SIGINT_REC ∨
      main_exit s b = 0) := by
  refine ⟨fun h => ?_, fun h hb => ?_, fun h hb => ?_, ?_⟩
  · have hne : s.notexec ≠ 0 := Nat.pos_iff_ne_zero.mp h
    simp [main_exit, hne]
  · subst hb
    simp [main_exit, h]
  · subst hb
    simp [main_exit, h]
  · by_cases h : s.notexec = 0
    · cases b
      · right; right; simp [main_exit, h]
      · right; left; simp [main_exit, h]
    · left; simp [main_exit, h]

/-- Witness for C5 at three concrete stats/flag combinations. -/
theorem final_exit_disposition_witness :
    main_exit ⟨0, 0, 0, 1, 1⟩ true = PROCESS_ERROR ∧
    main_exit ⟨1, 0, 0, 0, 1⟩ true = SIGINT_REC ∧
    main_exit ⟨1, 0, 0, 0, 1⟩ false = 0 :=
  ⟨(final_exit_disposition ⟨0, 0, 0, 1, 1⟩ true).1 (by decide),
   (final_exit_disposition ⟨1, 0, 0, 0, 1⟩ true).2.1 rfl rfl,
   (final_exit_disposition ⟨1, 0, 0, 0, 1⟩ false).2.2.1 rfl rfl⟩

/-- C6: with no interrupt during the run, the final StatsTally of a sequential
run equals the final StatsTally of a parallel run over the same files,
pipeline and termination statuses: all five counters are mode-independent. -/
theorem stats_mode_independent (env : Env) (h : ∀ k, env.sig k = false) :
    (run_pipeline_seq env).stats = (run_pipeline_par env).stats := by
  rw [run_seq_nosig env h, run_par_nosig env h]

/-- Witness for C6 on envMixed (one valid file, one invalid file, two
stages). -/
theorem stats_mode_independent_witness :
    (run_pipeline_seq envMixed).stats = (run_pipeline_par envMixed).stats :=
  stats_mode_independent envMixed (fun _ => rfl)

/-- C7: a validated file f of an uninterrupted run has, in both modes, exactly
the spawn events (f,0),...,(f,k-1) in stage order and exactly the same reap
events in stage order, where k is the pipeline's stage count: exactly k
processes are spawned for f and exactly k reap operations are performed for f,
stage 0 first, regardless of execution mode. -/
theorem spawn_reap_per_file (env : Env) (f : Nat) (h : ∀ k, env.sig k = false)
    (hf : f < env.numFiles) (hv : env.valid f = true) :
    (run_pipeline_seq env).spawned.filter (fun e => e.1 == f)
        = exec_cmd env.numCmds f ∧
    (run_pipeline_seq env).reaped.filter (fun e => e.1 == f)
        = exec_cmd env.numCmds f ∧
    (run_pipeline_par env).spawned.filter (fun e => e.1 == f)
        = exec_cmd env.numCmds f ∧
    (run_pipeline_par env).reaped.filter (fun e => e.1 == f)
        = exec_cmd env.numCmds f ∧
    exec_cmd env.numCmds f = (List.range env.numCmds).map (fun j => (f, j)) ∧
    (exec_cmd env.numCmds f).length = env.numCmds := by
  rw [run_seq_nosig env h, run_par_nosig env h]
  have hfl : (runEvents env (List.range env.numFiles)).filter (fun e => e.1 == f)
      = exec_cmd env.numCmds f := by
    rw [runEvents_filter env f _ (List.nodup_range _),
      if_pos ⟨List.mem_range.mpr hf, hv⟩]
  exact ⟨hfl, hfl, hfl, hfl, rfl, by simp [exec_cmd]⟩

/-- Witness for C7 on envMixed's valid file 0 (two stages). -/
theorem spawn_reap_per_file_witness :
    (run_pipeline_seq envMixed).spawned.filter (fun e => e.1 == 0)
        = exec_cmd envMixed.numCmds 0 ∧
    (run_pipeline_par envMixed).reaped.filter (fun e => e.1 == 0)
        = exec_cmd envMixed.numCmds 0 ∧
    (exec_cmd envMixed.numCmds 0).length = envMixed.numCmds := by
  have h := spawn_reap_per_file envMixed 0 (fun _ => rfl) (by decide) (by decide)
  exact ⟨h.1, h.2.2.2.1, h.2.2.2.2.2⟩

/-- C8: for every pair of optional redirection targets, the validator opens
the resolved input target read-only and the resolved output target in
create/truncate mode, immediately closing each on success; it returns valid
exactly when every specified target opened successfully; and on the first
failure it stops (no later target is touched), emits a diagnostic naming the
failed resolved path and the file being processed, and reports invalid. -/
theorem validate_files_contract (fs : FileSys) (inF outF : Option (List Char))
    (fileName : List Char) :
    ((validate_files fs inF outF fileName).1 = true ↔
      ((∀ p ∈ inF, fs.canRead (handle_placeholders p fileName) = true) ∧
       (∀ q ∈ outF, fs.canWrite (handle_placeholders q fileName) = true))) ∧
    (∀ p, inF = some p → fs.canRead (handle_placeholders p fileName) = false →
      validate_files fs inF outF fileName =
        (false, [.openAttempt true (handle_placeholders p fileName),
                 .diag true (handle_placeholders p fileName) fileName])) ∧
    (∀ q, outF = some q →
      (∀ p ∈ inF, fs.canRead (handle_placeholders p fileName) = true) →
      fs.canWrite (handle_placeholders q fileName) = false →
      validate_files fs inF outF fileName =
        (false, optTrace true inF fileName ++
                [.openAttempt false (handle_placeholders q fileName),
                 .diag false (handle_placeholders q fileName) fileName])) ∧
    ((∀ p ∈ inF, fs.canRead (handle_placeholders p fileName) = true) →
     (∀ q ∈ outF, fs.canWrite (handle_placeholders q fileName) = true) →
      validate_files fs inF outF fileName =
        (true, optTrace true inF fileName ++ optTrace false outF fileName)) := by
  cases inF with
  | none =>
    cases outF with
    | none => simp [validate_files, validate_out, optTrace]
    | some q =>
      by_cases hw : fs.canWrite (handle_placeholders q fileName)
      · simp [validate_files, validate_out, try_open_file, optTrace, hw]
      · simp [validate_files, validate_out, try_open_file, optTrace, hw]
  | some p =>
    by_cases hr : fs.canRead (handle_placeholders p fileName)
    · cases outF with
      | none => simp [validate_files, validate_out, try_open_file, optTrace, hr]
      | some q =>
        by_cases hw : fs.canWrite (handle_placeholders q fileName)
        · simp [validate_files, validate_out, try_open_file, optTrace, hr, hw]
        · simp [validate_files, validate_out, try_open_file, optTrace, hr, hw]
    · simp [validate_files, validate_out, try_open_file, optTrace, hr]

/-- Witness for C8: all-permissive and all-refusing file systems on the
targets "i" (input) and "o" (output) while processing file "f". -/
theorem validate_files_contract_witness :
    validate_files ⟨fun _ => true, fun _ => true⟩ (some ['i']) (some ['o']) ['f']
      = (true, [.openAttempt true ['i'], .closed ['i'],
                .openAttempt false ['o'], .closed ['o']]) ∧
    validate_files ⟨fun _ => false, fun _ => false⟩ (some ['i']) (some ['o']) ['f']
      = (false, [.openAttempt true ['i'], .diag true ['i'] ['f']]) := by
  constructor
  · have h := (validate_files_contract ⟨fun _ => true, fun _ => true⟩
      (some ['i']) (some ['o']) ['f']).2.2.2 (by simp) (by simp)
    exact h.trans (by decide)
  · have h := (validate_files_contract ⟨fun _ => false, fun _ => false⟩
      (some ['i']) (some ['o']) ['f']).2.1 ['i'] rfl (by decide)
    exact h.trans (by decide)

/-- C9 counterexample: a stage whose program executed successfully and itself
exited with code 99 produces a termination status identical to the
could-not-execute marker, and a lone exited-99 status classifies NotExecuted
while every other lone nonzero exit classifies Failure: the marker status is
not distinct from ordinary nonzero exit codes. -/
theorem exec_marker_counterexample :
    (child_exec_tail true (WaitStatus.exited 99) ['p'] ['f']).1
      = (child_exec_tail false (WaitStatus.exited 0) ['p'] ['f']).1 ∧
    classify [WaitStatus.exited 99] = Outcome.notExecuted ∧
    classify [WaitStatus.exited 98] = Outcome.failure := by
  decide

/-- C9 (amended): a stage whose exec fails emits a diagnostic naming the
program and the processed file and terminates with the reserved exit code 99
(CHILD_PROCESS_ERROR); the classifier treats that code specially — any status
set containing it folds into NotExecuted when the coordinator reaps and
counts, while every other lone nonzero exit code classifies as Failure — but
the marker coincides with the ordinary exit code 99, so it is distinguished
only as that specific code, not from all ordinary nonzero exits. -/
theorem exec_failure_diag_marker (prog fileName : List Char) (rs : WaitStatus)
    (env : Env) (i : Nat) (s : Stats) (c : Nat)
    (hmem : WaitStatus.exited CHILD_PROCESS_ERROR ∈ statusList env i)
    (hc0 : c ≠ 0) (hc99 : c ≠ CHILD_PROCESS_ERROR) :
    child_exec_tail false rs prog fileName
      = (WaitStatus.exited CHILD_PROCESS_ERROR,
         [ChildEvent.execDiag prog fileName]) ∧
    classify (statusList env i) = Outcome.notExecuted ∧
    reap_children env i s = applyOutcome s Outcome.notExecuted ∧
    classify [WaitStatus.exited c] = Outcome.failure := by
  have hcl := classify_of_mem99 _ hmem
  have h99 : (c == CHILD_PROCESS_ERROR) = false := by simpa using hc99
  have h0 : (c == 0) = false := by simpa using hc0
  refine ⟨rfl, hcl, ?_, ?_⟩
  · rw [reap_children, count_stats_eq, hcl]
  · simp [classify, isNotExecStatus, isSignaledStatus, isFailStatus, h99, h0]

/-- Witness for C9 (amended) on env99 (whose single stage status is
exited 99) and the ordinary failing code 1. -/
theorem exec_failure_diag_marker_witness :
    child_exec_tail false (WaitStatus.exited 0) ['p'] ['f']
      = (WaitStatus.exited CHILD_PROCESS_ERROR,
         [ChildEvent.execDiag ['p'] ['f']]) ∧
    classify (statusList env99 0) = Outcome.notExecuted ∧
    reap_children env99 0 ⟨0, 0, 0, 0, 0⟩
      = applyOutcome ⟨0, 0, 0, 0, 0⟩ Outcome.notExecuted ∧
    classify [WaitStatus.exited 1] = Outcome.failure :=
  exec_failure_diag_marker ['p'] ['f'] (WaitStatus.exited 0) env99 0
    ⟨0, 0, 0, 0, 0⟩ 1 (by decide) (by decide) (by decide)

/-- C10: if any stage of a validated file exits normally with code 99 — in
particular a stage whose program executed successfully and itself chose
exit(99) produces the very same status as an exec failure — the file
classifies NotExecuted and the uninterrupted run's final exit disposition is
PROCESS_ERROR (exit status 16) in both execution modes. -/
theorem exit99_classified_notexec (env : Env) (f j : Nat) (b : Bool)
    (prog fileName : List Char)
    (h : ∀ k, env.sig k = false) (hf : f < env.numFiles)
    (hv : env.valid f = true) (hj : j < env.numCmds)
    (h99 : env.status f j = WaitStatus.exited CHILD_PROCESS_ERROR) :
    classify (statusList env f) = Outcome.notExecuted ∧
    main_exit (run_pipeline_seq env).stats b = PROCESS_ERROR ∧
    main_exit (run_pipeline_par env).stats b = PROCESS_ERROR ∧
    (child_exec_tail true (WaitStatus.exited CHILD_PROCESS_ERROR) prog fileName).1
      = (child_exec_tail false (WaitStatus.exited 0) prog fileName).1 := by
  have hmem : WaitStatus.exited CHILD_PROCESS_ERROR ∈ statusList env f :=
    List.mem_map.mpr ⟨j, List.mem_range.mpr hj, h99⟩
  have hcl := classify_of_mem99 _ hmem
  have hfu : fileUnit env f = outcomeUnit Outcome.notExecuted := by
    rw [fileUnit, if_pos hv, hcl]
  have hpos := runUnits_notexec_pos env f hf hfu
  refine ⟨hcl, ?_, ?_, rfl⟩
  · rw [run_seq_nosig env h]
    simp [main_exit, hpos]
  · rw [run_par_nosig env h]
    simp [main_exit, hpos]

/-- Witness for C10 on env99. -/
theorem exit99_classified_notexec_witness :
    classify (statusList env99 0) = Outcome.notExecuted ∧
    main_exit (run_pipeline_seq env99).stats false = PROCESS_ERROR ∧
    main_exit (run_pipeline_par env99).stats false = PROCESS_ERROR := by
  have h := exit99_classified_notexec env99 0 0 false ['p'] ['f'] (fun _ => rfl)
    (by decide) (by decide) (by decide) (by decide)
  exact ⟨h.1, h.2.1, h.2.2.1⟩
